import Mathlib

/-!
Verification of the haproxy-layer7-disk-check core (src/main.go) against its
design specification.  The Go program is shallowly embedded: the HTTP
threshold handler, the state-store update loop, the poller and its backoff
computation become pure Lean functions; process termination via log.Fatal
becomes an explicit outcome constructor; the external `du` invocation
becomes an `Option String` input (none = exec error).
-/

namespace DiskCheck

/-- pollInterval = 60 * time.Second, in nanoseconds (src/main.go line 17). -/
def pollInterval : Nat := 60 * 1000000000

/-- errTimeout = 10 * time.Second, in nanoseconds (src/main.go line 19). -/
def errTimeout : Nat := 10 * 1000000000

/-- Default of the threshold flag: uint64(1.074*10E11) (src/main.go line 23).
Go evaluates constant expressions exactly: 10E11 is the float literal
10 x 10^11 = 10^12, so the constant is (1074/1000) x 10^12, an exact
integer, computed here as exact natural division. -/
def defaultThreshold : Nat := 1074 * 10 ^ 12 / 1000

/-- Configuration flags (src/main.go lines 22-27): target path, threshold
in bytes, override flag.  Immutable after startup; the listen address does
not influence any modelled behaviour. -/
structure Config where
  path : String
  threshold : Nat
  override : Bool
deriving DecidableEq

/-- State message sent from Poller to StateMonitor (src/main.go lines 31-34). -/
structure State where
  path : String
  bytes : Nat
deriving DecidableEq

/-- The diskStatus map: map[string]uint64.  `none` models a key absent from
the Go map; a bare Go map read yields the zero value for absent keys,
modelled by `mapGet`. -/
def DiskTable : Type := String → Option Nat

/-- Go map read `state[p]`: the zero value 0 when the key is absent. -/
def mapGet (t : DiskTable) (p : String) : Nat := (t p).getD 0

/-- An HTTP response: status code and body bytes. -/
structure Response where
  status : Nat
  body : String
deriving DecidableEq

/-- http.Error(w, msg, code): writes msg followed by a newline. -/
def httpError (msg : String) (code : Nat) : Response :=
  ⟨code, msg ++ "\n"⟩

/-- %v rendering of a Go bool. -/
def boolString (b : Bool) : String := if b then "true" else "false"

/-- The GET / handler registered in StateMonitor (src/main.go lines 68-82):
reads bytes for the configured path from the table (zero when absent) and
switches on the three cases. -/
def handleRoot (t : DiskTable) (cfg : Config) : Response :=
  let bytes := mapGet t cfg.path
  if bytes = 0 then
    httpError "Disk status not cached yet" 503
  else if cfg.threshold < bytes ∧ cfg.override = false then
    httpError ("ERROR: Bytes exceed threshold (" ++ toString bytes ++ "/" ++
      toString cfg.threshold ++ ")") 500
  else
    ⟨200, "OK: " ++ cfg.path ++ " is " ++ toString bytes ++
      " bytes; override set to " ++ boolString cfg.override ++ "\n"⟩

/-- The server state visible to the handler: the shared diskStatus table and
the (immutable) configuration flags. -/
structure ServerState where
  table : DiskTable
  cfg : Config

/-- The handler as a state transformer: each branch of the Go switch only
writes to the ResponseWriter (under RLock), so each branch returns the
server state it started from. -/
def handleRequest (st : ServerState) : Response × ServerState :=
  let bytes := mapGet st.table st.cfg.path
  if bytes = 0 then
    (httpError "Disk status not cached yet" 503, st)
  else if st.cfg.threshold < bytes ∧ st.cfg.override = false then
    (httpError ("ERROR: Bytes exceed threshold (" ++ toString bytes ++ "/" ++
      toString st.cfg.threshold ++ ")") 500, st)
  else
    (⟨200, "OK: " ++ st.cfg.path ++ " is " ++ toString bytes ++
      " bytes; override set to " ++ boolString st.cfg.override ++ "\n"⟩, st)

/-- The update branch of the StateMonitor select loop (src/main.go lines
59-63): diskStatus.state[s.path] = s.bytes. -/
def applyEvent (t : DiskTable) (s : State) : DiskTable :=
  fun p => if p = s.path then some s.bytes else t p

/-- Processing a finite sequence of measurement events in receipt order. -/
def processEvents (t : DiskTable) (es : List State) : DiskTable :=
  es.foldl applyEvent t

/-- Specification-side definition (for comparison with processEvents): the
bytes value of the most recently processed event for a path, where later
list elements are more recent (receipt order). -/
def specLastWrite : List State → String → Option Nat
  | [], _ => none
  | e :: es, p =>
    match specLastWrite es p with
    | some b => some b
    | none => if e.path = p then some e.bytes else none

/-- Value of a digit character as used by strconv (0-9, a-z, A-Z). -/
def digitVal (c : Char) : Option Nat :=
  if '0' ≤ c ∧ c ≤ '9' then some (c.toNat - '0'.toNat)
  else if 'a' ≤ c ∧ c ≤ 'z' then some (c.toNat - 'a'.toNat + 10)
  else if 'A' ≤ c ∧ c ≤ 'Z' then some (c.toNat - 'A'.toNat + 10)
  else none

/-- Accumulate digits of the given base; any non-digit is an error. -/
def parseDigitsAux (base : Nat) (acc : Nat) : List Char → Option Nat
  | [] => some acc
  | c :: cs =>
    match digitVal c with
    | some d => if d < base then parseDigitsAux base (acc * base + d) cs else none
    | none => none

/-- A non-empty run of digits of the given base. -/
def parseDigits (base : Nat) (cs : List Char) : Option Nat :=
  match cs with
  | [] => none
  | _ => parseDigitsAux base 0 cs

/-- strconv.ParseUint(s, 0, 64) (src/main.go line 124), on the character
list of s: base inferred from the prefix (0b/0o/0x, leading 0 = octal,
else decimal), no sign permitted, error when the value does not fit in 64
bits.  Digit-separating underscores, accepted by Go under base 0, are not
modelled (du output is plain decimal). -/
def parseUint64 (cs : List Char) : Option Nat :=
  match cs with
  | [] => none
  | c :: rest =>
    let p : Nat × List Char :=
      if c = '0' then
        match rest with
        | [] => (10, cs)
        | d :: rest2 =>
          if d = 'b' ∨ d = 'B' then (2, rest2)
          else if d = 'o' ∨ d = 'O' then (8, rest2)
          else if d = 'x' ∨ d = 'X' then (16, rest2)
          else (8, rest)
      else (10, cs)
    match parseDigits p.1 p.2 with
    | none => none
    | some n => if n < 2 ^ 64 then some n else none

/-- A Path task (src/main.go lines 103-106): the polled path and the
consecutive-error count. -/
structure Path where
  path : String
  errCount : Nat
deriving DecidableEq

/-- Outcome of Path.Poll: `fatal` models log.Fatal, which logs and exits
the whole process; `ok` carries the returned byte count and the task after
the method ran. -/
inductive PollResult where
  | fatal : PollResult
  | ok : Nat → Path → PollResult
deriving DecidableEq

/-- Whitespace as trimmed by strings.TrimSpace (the ASCII cases; du output
contains no exotic Unicode spacing). -/
def isSpaceChar (c : Char) : Bool :=
  c = ' ' || c = '\t' || c = '\n' || c = '\r' || c = '\x0b' || c = '\x0c'

/-- strings.TrimSpace (src/main.go line 118), on the character list. -/
def trimSpace (cs : List Char) : List Char :=
  ((cs.dropWhile isSpaceChar).reverse.dropWhile isSpaceChar).reverse

/-- strings.Split(s, "\t")[0] (src/main.go line 121): the prefix of s up to
the first tab (the whole of s when no tab occurs; Split never returns an
empty slice). -/
def firstTabField (cs : List Char) : List Char :=
  cs.takeWhile (fun c => ¬ c = '\t')

/-- Path.Poll (src/main.go lines 110-131).  The external command
`du -sbx r.path` is an input: `none` is an exec error.  On exec error the
code calls log.Fatal (process exit), so the following r.errCount++ is
unreachable; likewise for a parse error.  On success r.errCount is set
to 0 and the parsed byte count returned. -/
def Poll (r : Path) (execOutput : Option (List Char)) : PollResult :=
  match execOutput with
  | none => PollResult.fatal
  | some out =>
    let s := trimSpace out
    let bytesStr := firstTabField s
    match parseUint64 bytesStr with
    | none => PollResult.fatal
    | some bytes => PollResult.ok bytes ⟨r.path, 0⟩

/-- The duration slept by Path.Sleep (src/main.go line 136):
pollInterval + errTimeout * errCount, in nanoseconds.  (Go computes in
time.Duration = int64; overflow would need errCount ≥ 2^63 / 10^10,
about 9.2 x 10^8 consecutive errors, unreachable since errCount is 0
whenever Sleep runs.) -/
def sleepDuration (errCount : Nat) : Nat :=
  pollInterval + errTimeout * errCount

/-- s has sub as a contiguous substring. -/
def containsStr (s sub : String) : Prop :=
  ∃ a b, s = a ++ sub ++ b

/-- C1: the claim (and the spec) require that a failed poll not terminate
the process and instead increment consecutive_error_count.  The code does
the opposite: both failure branches of Path.Poll call log.Fatal, which
exits the whole process, and the r.errCount++ statements after them are
unreachable.  This theorem evaluates the embedded Poll at the two failing
input classes: exec error (none) and unparsable output. -/
theorem poll_failure_terminates_process :
    Poll ⟨"/mnt/storage", 0⟩ none = PollResult.fatal ∧
    Poll ⟨"/mnt/storage", 0⟩ (some "du: cannot access /mnt/storage".toList)
      = PollResult.fatal := by
  decide

/-- C2 counterexample: the default threshold is not approximately
1.074 x 10^11: it is exactly 1 074 000 000 000 = 10 x 107 400 000 000,
an order of magnitude above the claimed value. -/
theorem default_threshold_counterexample :
    defaultThreshold = 10 * 107400000000 ∧ ¬ defaultThreshold ≤ 2 * 107400000000 := by
  decide

/-- C2 (amended): the default value of the threshold flag is exactly
1 074 000 000 000 bytes, approximately 1.074 x 10^12 (the Go literal 10E11
denotes 10 x 10^11 = 10^12). -/
theorem default_threshold_value :
    defaultThreshold = 1074000000000 := by
  decide

/-- C3: when the cached byte count for the configured path strictly
exceeds the threshold and the override flag is unset, GET / answers 500
and the body contains both the measured byte count and the threshold
(rendered in decimal inside the ERROR message, which http.Error
terminates with a newline). -/
theorem over_threshold_returns_500 (t : DiskTable) (cfg : Config)
    (hb : cfg.threshold < mapGet t cfg.path) (ho : cfg.override = false) :
    (handleRoot t cfg).status = 500 ∧
    containsStr (handleRoot t cfg).body (toString (mapGet t cfg.path)) ∧
    containsStr (handleRoot t cfg).body (toString cfg.threshold) := by
  have hnz : ¬ mapGet t cfg.path = 0 := by omega
  have hcond : cfg.threshold < mapGet t cfg.path ∧ cfg.override = false := ⟨hb, ho⟩
  refine ⟨?_, ?_, ?_⟩
  · simp [handleRoot, hnz, hcond, httpError]
  · refine ⟨"ERROR: Bytes exceed threshold (",
      "/" ++ toString cfg.threshold ++ ")" ++ "\n", ?_⟩
    simp [handleRoot, hnz, hcond, httpError, String.append_assoc]
  · refine ⟨"ERROR: Bytes exceed threshold (" ++ toString (mapGet t cfg.path) ++ "/",
      ")" ++ "\n", ?_⟩
    simp [handleRoot, hnz, hcond, httpError, String.append_assoc]

/-- C3 witness: table caching 11 bytes for path /p against threshold 10
with override unset. -/
theorem over_threshold_returns_500_witness :
    ((handleRoot (fun q => if q = "/p" then some 11 else none) ⟨"/p", 10, false⟩).status = 500 ∧
    containsStr (handleRoot (fun q => if q = "/p" then some 11 else none) ⟨"/p", 10, false⟩).body
      (toString (mapGet (fun q => if q = "/p" then some 11 else none) "/p")) ∧
    containsStr (handleRoot (fun q => if q = "/p" then some 11 else none) ⟨"/p", 10, false⟩).body
      (toString (10 : Nat))) :=
  over_threshold_returns_500 (fun q => if q = "/p" then some 11 else none) ⟨"/p", 10, false⟩
    (by decide) (by decide)

/-- C4: when the configured path is absent from the table or cached as
zero, GET / answers 503 with the not-cached message (http.Error appends
the trailing newline), whatever the override flag is. -/
theorem not_cached_returns_503 (t : DiskTable) (cfg : Config)
    (h : t cfg.path = none ∨ t cfg.path = some 0) :
    handleRoot t cfg = ⟨503, "Disk status not cached yet\n"⟩ := by
  have hz : mapGet t cfg.path = 0 := by
    rcases h with h | h <;> simp [mapGet, h]
  simp [handleRoot, hz, httpError]

/-- C4 witness: empty table, override set, threshold 10. -/
theorem not_cached_returns_503_witness :
    handleRoot (fun _ => none) ⟨"/p", 10, true⟩ = ⟨503, "Disk status not cached yet\n"⟩ :=
  not_cached_returns_503 (fun _ => none) ⟨"/p", 10, true⟩ (Or.inl rfl)

/-- C5: a nonzero cached byte count that does not trip the error case
(count at most the threshold, or override set) yields 200 OK with the body
reporting path, byte count and override state. -/
theorem within_threshold_returns_200 (t : DiskTable) (cfg : Config)
    (h0 : ¬ mapGet t cfg.path = 0)
    (h1 : mapGet t cfg.path ≤ cfg.threshold ∨ cfg.override = true) :
    handleRoot t cfg = ⟨200, "OK: " ++ cfg.path ++ " is " ++ toString (mapGet t cfg.path) ++
      " bytes; override set to " ++ boolString cfg.override ++ "\n"⟩ := by
  have hcond : ¬ (cfg.threshold < mapGet t cfg.path ∧ cfg.override = false) := by
    rcases h1 with h1 | h1
    · intro hc; omega
    · intro hc; rw [h1] at hc; exact absurd hc.2 (by simp)
  simp [handleRoot, h0, hcond]

/-- C5 witness: 9 cached bytes against threshold 10, override unset. -/
theorem within_threshold_returns_200_witness :
    handleRoot (fun q => if q = "/p" then some 9 else none) ⟨"/p", 10, false⟩ =
      ⟨200, "OK: " ++ "/p" ++ " is " ++ toString (mapGet (fun q => if q = "/p" then some 9 else none) "/p") ++
        " bytes; override set to " ++ boolString false ++ "\n"⟩ :=
  within_threshold_returns_200 (fun q => if q = "/p" then some 9 else none) ⟨"/p", 10, false⟩
    (by decide) (Or.inl (by decide))

/-- C6: the delay Path.Sleep waits is exactly
pollInterval + errTimeout * errCount; it is monotone in the error count
and strictly above the base interval for at least one error. -/
theorem sleep_backoff_linear :
    (∀ k : Nat, sleepDuration k = pollInterval + errTimeout * k) ∧
    (∀ k j : Nat, k ≤ j → sleepDuration k ≤ sleepDuration j) ∧
    (∀ k : Nat, 1 ≤ k → pollInterval < sleepDuration k) := by
  refine ⟨fun k => rfl, fun k j h => ?_, fun k h => ?_⟩
  · simp only [sleepDuration, pollInterval, errTimeout]
    omega
  · simp only [sleepDuration, pollInterval, errTimeout]
    omega

/-- C6 witness at error counts 1 and 2. -/
theorem sleep_backoff_linear_witness :
    sleepDuration 2 = pollInterval + errTimeout * 2 ∧
    sleepDuration 1 ≤ sleepDuration 2 ∧
    pollInterval < sleepDuration 1 :=
  ⟨sleep_backoff_linear.1 2, sleep_backoff_linear.2.1 1 2 (by decide),
    sleep_backoff_linear.2.2 1 (by decide)⟩

theorem processEvents_cons (t : DiskTable) (e : State) (es : List State) :
    processEvents t (e :: es) = processEvents (applyEvent t e) es := rfl

/-- The table produced by the update loop, read at any path, is the most
recent write to that path when there is one and the initial entry
otherwise. -/
theorem processEvents_lookup (es : List State) (t : DiskTable) (p : String) :
    processEvents t es p = (specLastWrite es p).or (t p) := by
  induction es generalizing t with
  | nil => rfl
  | cons e es ih =>
    rw [processEvents_cons, ih]
    cases hs : specLastWrite es p with
    | some b => simp [specLastWrite, hs]
    | none =>
      by_cases hp : p = e.path
      · subst hp
        simp [specLastWrite, hs, applyEvent]
      · have hp2 : ¬ e.path = p := fun hq => hp hq.symm
        simp [specLastWrite, hs, applyEvent, hp, hp2]

/-- A path that occurs in the event sequence has a most recent write. -/
theorem specLastWrite_isSome {es : List State} {p : String}
    (h : ∃ e, e ∈ es ∧ e.path = p) : (specLastWrite es p).isSome := by
  induction es with
  | nil =>
    obtain ⟨e, he, _⟩ := h
    simp at he
  | cons a as ih =>
    obtain ⟨e, he, hp⟩ := h
    cases hs : specLastWrite as p with
    | some b => simp [specLastWrite, hs]
    | none =>
      rcases List.mem_cons.mp he with h1 | h2
      · subst h1
        simp [specLastWrite, hs, hp]
      · have := ih ⟨e, h2, hp⟩
        rw [hs] at this
        simp at this

/-- C7: after the State Store folds a finite event sequence into the table
in receipt order, every path occurring in the sequence is mapped to the
bytes of its most recently processed event (last-write-wins, no loss). -/
theorem state_store_last_write_wins (t : DiskTable) (es : List State) (p : String)
    (h : ∃ e, e ∈ es ∧ e.path = p) :
    ∃ b, specLastWrite es p = some b ∧ processEvents t es p = some b := by
  obtain ⟨b, hb⟩ := Option.isSome_iff_exists.mp (specLastWrite_isSome h)
  refine ⟨b, hb, ?_⟩
  rw [processEvents_lookup, hb]
  rfl

/-- C7 witness: two events for path /a over the empty table; the table
ends at the later value. -/
theorem state_store_last_write_wins_witness :
    ∃ b, specLastWrite [⟨"/a", 5⟩, ⟨"/a", 7⟩] "/a" = some b ∧
      processEvents (fun _ => none) [⟨"/a", 5⟩, ⟨"/a", 7⟩] "/a" = some b :=
  state_store_last_write_wins (fun _ => none) [⟨"/a", 5⟩, ⟨"/a", 7⟩] "/a"
    ⟨⟨"/a", 5⟩, by decide, rfl⟩

theorem handleRequest_snd (st : ServerState) : (handleRequest st).2 = st := by
  unfold handleRequest
  by_cases h0 : mapGet st.table st.cfg.path = 0
  · simp [h0]
  · by_cases h1 : st.cfg.threshold < mapGet st.table st.cfg.path ∧ st.cfg.override = false
    · simp [h0, h1]
    · simp [h0, h1]

/-- C8: handling the same GET / twice against an unchanged server state
yields byte-identical responses (the second request runs on the state the
first one left behind). -/
theorem get_idempotent (st : ServerState) :
    (handleRequest st).1 = (handleRequest (handleRequest st).2).1 := by
  rw [handleRequest_snd]

/-- C9: GET / is a pure read: the disk state table and the configuration
are identical before and after the request. -/
theorem get_pure_read (st : ServerState) :
    (handleRequest st).2.table = st.table ∧ (handleRequest st).2.cfg = st.cfg := by
  rw [handleRequest_snd]
  exact ⟨rfl, rfl⟩

/-- C10: whenever Poll returns normally, the task's error count is 0 (both
error branches end in log.Fatal, so the increments are unreachable and the
final assignment r.errCount = 0 always runs), hence the next Sleep waits
exactly the base poll interval. -/
theorem poll_success_resets_error_count (r : Path) (o : Option (List Char))
    (b : Nat) (q : Path) (h : Poll r o = PollResult.ok b q) :
    q.errCount = 0 ∧ sleepDuration q.errCount = pollInterval := by
  cases o with
  | none => simp [Poll] at h
  | some out =>
    simp only [Poll] at h
    cases hp : parseUint64 (firstTabField (trimSpace out)) with
    | none =>
      rw [hp] at h
      simp at h
    | some bytes =>
      rw [hp] at h
      simp only [PollResult.ok.injEq] at h
      rw [← h.2]
      exact ⟨rfl, by simp [sleepDuration]⟩

/-- C10 witness: a successful poll of du output 123 bytes for
/mnt/storage, started with error count 7. -/
theorem poll_success_resets_error_count_witness :
    (⟨"/mnt/storage", 0⟩ : Path).errCount = 0 ∧
    sleepDuration (Path.errCount ⟨"/mnt/storage", 0⟩) = pollInterval :=
  poll_success_resets_error_count ⟨"/mnt/storage", 7⟩
    (some "123\t/mnt/storage\n".toList) 123 ⟨"/mnt/storage", 0⟩ (by decide)

end DiskCheck
